import Mathlib

/-!
Verification of the Recipe Directory API (src/server.js).

The server is an Express application over three MongoDB collections
(Users, Recipes, ArchivedRecipes via mongoose models, src/server.js lines
39-71).  We embed the store as explicit lists of documents and each route
handler as a pure function from a database state (plus the request data)
to a new database state and a response.  ObjectIds and timestamps are
modelled as naturals; JS numbers that are only ever created as 0 and
incremented are modelled as naturals.  Store primitives used by the
handlers (findById, findByIdAndUpdate with a $set or $inc document,
findByIdAndDelete, find with a filter, populate, countDocuments, findOne
with a sort) are modelled on lists; MongoDB guarantees _id uniqueness,
which appears below as a Nodup hypothesis where a theorem needs it.
-/

namespace RecipeApp

/-- Document of the Users collection (userSchema, src/server.js lines 39-43). -/
structure User where
  id : Nat
  name : String
  email : String
  createdAt : Nat
deriving Repr, DecidableEq

/-- Document of the Recipes collection (recipeSchema, src/server.js lines 46-54). -/
structure Recipe where
  id : Nat
  title : String
  description : Option String
  ingredients : List String
  instructions : String
  author : Nat
  views : Nat
  createdAt : Nat
deriving Repr, DecidableEq

/-- Document of the ArchivedRecipes collection (archivedRecipeSchema, lines 57-66):
the Recipe fields plus an archivedAt timestamp. -/
structure ArchivedRecipe where
  id : Nat
  title : String
  description : Option String
  ingredients : List String
  instructions : String
  author : Nat
  views : Nat
  createdAt : Nat
  archivedAt : Nat
deriving Repr, DecidableEq

/-- The three collections of the store. -/
structure DB where
  users : List User
  recipes : List Recipe
  archived : List ArchivedRecipe
deriving Repr, DecidableEq

/-- Error taxonomy of the handlers: 404 responses (notFound) and 400
responses produced by mongoose validation (validation). -/
inductive Err where
  | notFound
  | validation
deriving Repr, DecidableEq

/-- Outcome of a handler: a success payload or an error response. -/
inductive Res (α : Type) where
  | ok (a : α)
  | err (e : Err)
deriving Repr, DecidableEq

/-- Store lookup by _id on the Recipes collection (Recipe.findById). -/
def findRecipe (rs : List Recipe) (i : Nat) : Option Recipe :=
  rs.find? (fun r => r.id == i)

/-- Store lookup by _id on the Users collection (used to model populate). -/
def findUser (us : List User) (i : Nat) : Option User :=
  us.find? (fun u => u.id == i)

/-- Update of the single document matched by p (MongoDB updates at most one
document for an _id filter, _id being unique). -/
def updateFirst (p : Recipe → Bool) (f : Recipe → Recipe) : List Recipe → List Recipe
  | [] => []
  | r :: rs => if p r then f r :: rs else r :: updateFirst p f rs

/-- Removal of the single document matched by p (findByIdAndDelete). -/
def removeFirst (p : Recipe → Bool) : List Recipe → List Recipe
  | [] => []
  | r :: rs => if p r then rs else r :: removeFirst p rs

/-- Effect of the update document with dollar-inc of views by 1. -/
def incViews (r : Recipe) : Recipe :=
  { r with views := r.views + 1 }

/-- Recipe.findByIdAndUpdate(id, dollar-inc views 1, new true): increments the
views counter of the matched document and returns the post-increment document,
or none when the id does not resolve (src/server.js lines 158 and 205-209). -/
def findByIdAndIncViews (db : DB) (i : Nat) : DB × Option Recipe :=
  match findRecipe db.recipes i with
  | none => (db, none)
  | some r =>
    ({ db with recipes := updateFirst (fun x => x.id == i) incViews db.recipes },
     some (incViews r))

/-- A Recipe with its author reference resolved by populate to the full
User document (null when the reference does not resolve). -/
structure PopulatedRecipe where
  id : Nat
  title : String
  description : Option String
  ingredients : List String
  instructions : String
  author : Option User
  views : Nat
  createdAt : Nat
deriving Repr, DecidableEq

/-- populate of the author path with the full User document. -/
def populateFull (us : List User) (r : Recipe) : PopulatedRecipe :=
  { id := r.id, title := r.title, description := r.description,
    ingredients := r.ingredients, instructions := r.instructions,
    author := findUser us r.author, views := r.views, createdAt := r.createdAt }

/-- Handler GET /recipe/:recipeId (src/server.js lines 155-165):
findByIdAndUpdate with dollar-inc of views, new true, populate of author;
404 when the id does not resolve. -/
def getRecipe (db : DB) (i : Nat) : DB × Res PopulatedRecipe :=
  match findByIdAndIncViews db i with
  | (db1, none) => (db1, Res.err Err.notFound)
  | (db1, some r) => (db1, Res.ok (populateFull db1.users r))

/-- Success body of GET /recipes/view/:recipeId: a message and the new
counter value only (src/server.js line 211). -/
structure ViewResponse where
  message : String
  views : Nat
deriving Repr, DecidableEq

/-- Handler GET /recipes/view/:recipeId (src/server.js lines 202-215): same
findByIdAndUpdate with dollar-inc of views, but the response carries only the
message and the new counter value; 404 when the id does not resolve. -/
def incrementView (db : DB) (i : Nat) : DB × Res ViewResponse :=
  match findByIdAndIncViews db i with
  | (db1, none) => (db1, Res.err Err.notFound)
  | (db1, some r) => (db1, Res.ok { message := "View incremented", views := r.views })

/-- The ArchivedRecipe built from a Recipe: spread of recipe.toObject()
plus archivedAt set to the current time (src/server.js line 79). -/
def toArchived (r : Recipe) (now : Nat) : ArchivedRecipe :=
  { id := r.id, title := r.title, description := r.description,
    ingredients := r.ingredients, instructions := r.instructions,
    author := r.author, views := r.views, createdAt := r.createdAt,
    archivedAt := now }

/-- Helper archiveRecipe (src/server.js lines 76-82): look the Recipe up by
id; if found, save a copy with archivedAt into the Archive; otherwise do
nothing. -/
def archiveRecipe (db : DB) (i now : Nat) : DB :=
  match findRecipe db.recipes i with
  | some r => { db with archived := db.archived ++ [toArchived r now] }
  | none => db

/-- Handler DELETE /delete-recipe/:recipeId (src/server.js lines 129-141):
archiveRecipe, then findByIdAndDelete; 404 when that delete matched no
document. -/
def deleteRecipe (db : DB) (i now : Nat) : DB × Res Unit :=
  let db1 := archiveRecipe db i now
  match findRecipe db1.recipes i with
  | none => (db1, Res.err Err.notFound)
  | some _ =>
    ({ db1 with recipes := removeFirst (fun r => r.id == i) db1.recipes }, Res.ok ())

/-- Body of PUT /update-recipe/:recipeId: an arbitrary subset of the Recipe
fields (req.body is passed to findByIdAndUpdate unchanged, line 118-119). -/
structure UpdateBody where
  title : Option String
  description : Option String
  ingredients : Option (List String)
  instructions : Option String
  author : Option Nat
  views : Option Nat
  createdAt : Option Nat
deriving Repr, DecidableEq

/-- Mongoose update validators (runValidators true, line 119) on the paths
present in the update: title carries minlength 3, instructions is a required
string (an empty string fails the string required check); the other present
paths have no failing validator in this schema. -/
def validUpdate (b : UpdateBody) : Bool :=
  (match b.title with
   | some t => decide (3 ≤ t.length)
   | none => true) &&
  (match b.instructions with
   | some s => decide (0 < s.length)
   | none => true)

/-- Effect of findByIdAndUpdate with a plain update document: a dollar-set of
each field present in the body; absent fields are untouched. -/
def applyUpdate (b : UpdateBody) (r : Recipe) : Recipe :=
  { r with
    title := b.title.getD r.title,
    description := match b.description with
      | some d => some d
      | none => r.description,
    ingredients := b.ingredients.getD r.ingredients,
    instructions := b.instructions.getD r.instructions,
    author := b.author.getD r.author,
    views := b.views.getD r.views,
    createdAt := b.createdAt.getD r.createdAt }

/-- Handler PUT /update-recipe/:recipeId (src/server.js lines 115-126):
findByIdAndUpdate with the request body, new true, runValidators true; 404
when the id does not resolve, 400 when a validator rejects the update. -/
def updateRecipe (db : DB) (i : Nat) (b : UpdateBody) : DB × Res Recipe :=
  if validUpdate b then
    match findRecipe db.recipes i with
    | none => (db, Res.err Err.notFound)
    | some r =>
      ({ db with recipes := updateFirst (fun x => x.id == i) (applyUpdate b) db.recipes },
       Res.ok (applyUpdate b r))
  else (db, Res.err Err.validation)

/-- Body of POST /add-recipe: the handler destructures only title,
description, ingredients, instructions and author from req.body (line 105);
views and createdAt stand for extra fields a client may also send. -/
structure CreateBody where
  title : Option String
  description : Option String
  ingredients : Option (List String)
  instructions : Option String
  author : Option Nat
  views : Option Nat
  createdAt : Option Nat
deriving Repr, DecidableEq

/-- Mongoose document validation on save (line 107): title required with
minlength 3, instructions a required nonempty string, author required;
ingredients defaults to the empty array, description is optional. -/
def validCreate (b : CreateBody) : Bool :=
  (match b.title with
   | some t => decide (3 ≤ t.length)
   | none => false) &&
  (match b.instructions with
   | some s => decide (0 < s.length)
   | none => false) &&
  b.author.isSome

/-- Handler POST /add-recipe (src/server.js lines 103-112): builds the new
Recipe from the five destructured fields only, so views starts at its schema
default 0 and createdAt at the current time; saves it; 400 on validation
failure. newId is the ObjectId generated by the driver. -/
def createRecipe (db : DB) (b : CreateBody) (newId now : Nat) : DB × Res Recipe :=
  if validCreate b then
    let r : Recipe :=
      { id := newId, title := b.title.getD "", description := b.description,
        ingredients := b.ingredients.getD [], instructions := b.instructions.getD "",
        author := b.author.getD 0, views := 0, createdAt := now }
    ({ db with recipes := db.recipes ++ [r] }, Res.ok r)
  else (db, Res.err Err.validation)

/-- Token of the regular-expression fragment the title filter needs: the
dot metacharacter or a literal character. -/
inductive RTok where
  | dot
  | lit (c : Char)
deriving Repr, DecidableEq

/-- Reading of one filter character as a regex token under the i option
(literals compared lowercased). -/
def tokOf (c : Char) : RTok :=
  if c == '.' then RTok.dot else RTok.lit c.toLower

/-- The filter string read as a token list. -/
def regexToks (s : String) : List RTok :=
  s.data.map tokOf

/-- Case-insensitive match of one token against one character. -/
def tokMatches (t : RTok) (c : Char) : Bool :=
  match t with
  | RTok.dot => true
  | RTok.lit l => l == c.toLower

/-- Match of the whole token list at the start of the character list. -/
def matchHere : List RTok → List Char → Bool
  | [], _ => true
  | _ :: _, [] => false
  | t :: ts, c :: cs => tokMatches t c && matchHere ts cs

/-- Unanchored search: match at some position of the character list. -/
def searchFrom (tk : List RTok) : List Char → Bool
  | [] => matchHere tk []
  | c :: cs => matchHere tk (c :: cs) || searchFrom tk cs

/-- Semantics of the store filter title dollar-regex pattern with option i
(src/server.js line 146), modelled for patterns made of literal characters
and the dot metacharacter — the fragment exercised here: unanchored
case-insensitive regex match against the title. -/
def regexTest (pat s : String) : Bool :=
  searchFrom (regexToks pat) s.data

/-- Occurrence of needle in hay as a contiguous sublist. -/
def containsFrom (needle : List Char) : List Char → Bool
  | [] => needle.isPrefixOf []
  | c :: cs => needle.isPrefixOf (c :: cs) || containsFrom needle cs

/-- The specification predicate of claim C6: needle occurs in hay as a
case-insensitive substring. -/
def ciContains (hay needle : String) : Bool :=
  containsFrom (needle.data.map Char.toLower) (hay.data.map Char.toLower)

/-- Characters that are their own regex: letters, digits and spaces carry
no metacharacter meaning. -/
def plainChar (c : Char) : Bool :=
  c.isAlphanum || c == ' '

/-- Author projection selected by populate with fields name and email
(src/server.js line 147). -/
structure AuthorView where
  name : String
  email : String
deriving Repr, DecidableEq

/-- Element of the GET /recipes response: the Recipe with its author
resolved to name and email. -/
structure RecipeListItem where
  id : Nat
  title : String
  description : Option String
  ingredients : List String
  instructions : String
  author : Option AuthorView
  views : Nat
  createdAt : Nat
deriving Repr, DecidableEq

/-- populate of the author path restricted to name and email. -/
def populateNameEmail (us : List User) (r : Recipe) : RecipeListItem :=
  { id := r.id, title := r.title, description := r.description,
    ingredients := r.ingredients, instructions := r.instructions,
    author := (findUser us r.author).map (fun u => { name := u.name, email := u.email }),
    views := r.views, createdAt := r.createdAt }

/-- Handler GET /recipes (src/server.js lines 144-152): when req.query.title
is present and truthy (the empty string is falsy in JS) the find filter is a
case-insensitive title regex, else the empty filter; every result is
populated with the author name and email. -/
def listRecipes (db : DB) (titleFilter : Option String) : List RecipeListItem :=
  let rs := match titleFilter with
    | some f => if f.isEmpty then db.recipes else db.recipes.filter (fun r => regexTest f r.title)
    | none => db.recipes
  rs.map (populateNameEmail db.users)

/-- Handler GET /user/:userId/views (src/server.js lines 179-188): find all
Recipes of the author and reduce their views counters with plus from 0. -/
def totalViewsByUser (db : DB) (uid : Nat) : Nat :=
  (db.recipes.filter (fun r => r.author == uid)).foldl (fun acc r => acc + r.views) 0

/-- First document of a views-descending sort: the scan keeps the current
document on ties, matching a stable sort of the list order. -/
def maxViewsPick : Recipe → List Recipe → Recipe
  | r, [] => r
  | r, x :: xs => if r.views < x.views then maxViewsPick x xs else maxViewsPick r xs

/-- First document of a views-ascending sort, same tie behaviour. -/
def minViewsPick : Recipe → List Recipe → Recipe
  | r, [] => r
  | r, x :: xs => if x.views < r.views then minViewsPick x xs else minViewsPick r xs

/-- Handler GET /user/:userId/highestviews (src/server.js lines 191-200):
findOne among the author's Recipes sorted by views descending; 404 when the
author has none. -/
def mostViewedByUser (db : DB) (uid : Nat) : Res Recipe :=
  match db.recipes.filter (fun r => r.author == uid) with
  | [] => Res.err Err.notFound
  | r :: rs => Res.ok (maxViewsPick r rs)

/-- A JSON number value that is either a plain integer or the string-like
formatted number produced by toFixed. -/
inductive JsonNum where
  | int (n : Nat)
  | str (s : String)
deriving Repr, DecidableEq

/-- Bit length of a natural number, written with an explicit fuel argument
so the recursion is structural; fuel n suffices since the bit length of n
never exceeds n. -/
def bitlenAux : Nat → Nat → Nat
  | 0, _ => 0
  | fuel + 1, n => if n = 0 then 0 else bitlenAux fuel (n / 2) + 1

/-- Bit length: 0 for 0, otherwise one more than the floor of log2. -/
def bitlen (n : Nat) : Nat := bitlenAux n n

/-- Decides 2 to the e ≤ r / u over an integer exponent, in exact natural
arithmetic. -/
def gePow2 (r u : Nat) (e : Int) : Bool :=
  if 0 ≤ e then decide (u * 2 ^ e.toNat ≤ r) else decide (u ≤ r * 2 ^ (-e).toNat)

/-- Floor of the base-two logarithm of r / u, for r, u ≥ 1: the bit-length
difference, corrected down by one when it overshoots. -/
def qlog2 (r u : Nat) : Int :=
  let e0 : Int := (bitlen r : Int) - (bitlen u : Int)
  if gePow2 r u e0 then e0 else e0 - 1

/-- The dyadic rational m times 2 to the (e - 52), as a numerator and a
power-of-two denominator. -/
def mkDyadic (m : Nat) (e : Int) : Nat × Nat :=
  if 52 ≤ e then (m * 2 ^ (e - 52).toNat, 1) else (m, 2 ^ (52 - e).toNat)

/-- The exact rational value of the IEEE-754 binary64 division of the two
counts (the JS expression totalRecipes / totalUsers): the 53-bit significand
of r / u is obtained by rounding to nearest, ties to even, and the result is
returned as a dyadic numerator-denominator pair. Faithful for counts below
2 to the 53 (then both operands are exactly representable and the quotient
of nonzero counts lies in the normal range). -/
def doubleQuotient (r u : Nat) : Nat × Nat :=
  if r = 0 then (0, 1) else
  let e : Int := qlog2 r u
  let s : Int := 52 - e
  let N : Nat := if 0 ≤ s then r * 2 ^ s.toNat else r
  let D : Nat := if 0 ≤ s then u else u * 2 ^ (-s).toNat
  let m0 : Nat := N / D
  let rem : Nat := N % D
  let m : Nat :=
    if 2 * rem < D then m0
    else if D < 2 * rem then m0 + 1
    else if m0 % 2 = 0 then m0 else m0 + 1
  mkDyadic m e

/-- The hundredths integer rendered by toFixed(2) on the double quotient v:
the integer n minimizing the distance of n/100 to v, the larger n on a tie
(the ECMA toFixed rule), computed as the floor of 100 v + 1/2 in exact
arithmetic on the dyadic pair. -/
def fixedHundredths (r u : Nat) : Nat :=
  let v := doubleQuotient r u
  (200 * v.1 + v.2) / (2 * v.2)

/-- Two-digit rendering of a number below 100. -/
def pad2 (n : Nat) : String :=
  (if n < 10 then "0" else "") ++ toString n

/-- The string produced by the JS expression (r / u).toFixed(2): the decimal
rendering of the hundredths of the binary64 quotient (for values below ten
to the 21, where toFixed does not switch to exponential form). -/
def toFixed2 (r u : Nat) : String :=
  toString (fixedHundredths r u / 100) ++ "." ++ pad2 (fixedHundredths r u % 100)

/-- Response of GET /analytics (src/server.js lines 227-233). The two
extremal fields are none when there are no recipes (the handler then sends
the sentinel string instead of a document). -/
structure Analytics where
  totalUsers : Nat
  totalRecipes : Nat
  avgRecipesPerUser : JsonNum
  mostViewedRecipe : Option Recipe
  leastViewedRecipe : Option Recipe
deriving Repr, DecidableEq

/-- Handler GET /analytics (src/server.js lines 218-237): document counts,
the average totalRecipes over totalUsers as a toFixed(2) string when
totalUsers is nonzero and the number 0 otherwise, and the two extremal
recipes by views. -/
def getAnalytics (db : DB) : Analytics :=
  let tu := db.users.length
  let tr := db.recipes.length
  { totalUsers := tu, totalRecipes := tr,
    avgRecipesPerUser := if tu == 0 then JsonNum.int 0 else JsonNum.str (toFixed2 tr tu),
    mostViewedRecipe := match db.recipes with
      | [] => none
      | r :: rs => some (maxViewsPick r rs),
    leastViewedRecipe := match db.recipes with
      | [] => none
      | r :: rs => some (minViewsPick r rs) }

/-- N sequential calls of GET /recipe/:recipeId, keeping only the store
state. -/
def iterGetRecipe (db : DB) (i : Nat) : Nat → DB
  | 0 => db
  | n + 1 => (getRecipe (iterGetRecipe db i n) i).1

/-- Sample user. -/
def uA : User :=
  { id := 1, name := "Alice", email := "alice@mail.com", createdAt := 0 }

/-- Second sample user. -/
def uB : User :=
  { id := 2, name := "Bobby", email := "bobby@mail.com", createdAt := 0 }

/-- Sample recipe of author 1 with zero views. -/
def rA : Recipe :=
  { id := 1, title := "Pasta", description := none, ingredients := ["egg"],
    instructions := "boil", author := 1, views := 0, createdAt := 0 }

/-- Store with one user and one fresh recipe. -/
def dbA : DB :=
  { users := [uA], recipes := [rA], archived := [] }

/-- Empty store. -/
def dbEmpty : DB :=
  { users := [], recipes := [], archived := [] }

/-- Recipe titled Chocolate Cake. -/
def rChoc : Recipe :=
  { id := 1, title := "Chocolate Cake", description := none, ingredients := ["cocoa"],
    instructions := "bake", author := 1, views := 3, createdAt := 0 }

/-- Recipe titled Bread. -/
def rBread : Recipe :=
  { id := 2, title := "Bread", description := none, ingredients := ["flour"],
    instructions := "bake", author := 1, views := 5, createdAt := 0 }

/-- Recipe titled Carrot Cake. -/
def rCarrot : Recipe :=
  { id := 3, title := "Carrot Cake", description := none, ingredients := ["carrot"],
    instructions := "bake", author := 1, views := 0, createdAt := 0 }

/-- Store with the three cake-example recipes. -/
def dbCakes : DB :=
  { users := [uA], recipes := [rChoc, rBread, rCarrot], archived := [] }

/-- Recipe titled Cake, whose title holds no dot character. -/
def rCake : Recipe :=
  { id := 1, title := "Cake", description := none, ingredients := ["x"],
    instructions := "mix", author := 1, views := 0, createdAt := 0 }

/-- Store holding only the Cake recipe. -/
def dbDot : DB :=
  { users := [], recipes := [rCake], archived := [] }

/-- Store with two users and three recipes. -/
def dbAn : DB :=
  { users := [uA, uB], recipes := [rChoc, rBread, rCarrot], archived := [] }

/-- Store with 40 users and 107 recipes, the counts at which the binary64
quotient falls below the exact ratio 2.675. -/
def dbCex7 : DB :=
  { users := (List.range 40).map (fun k =>
      { id := k, name := "User", email := "user@mail.com", createdAt := 0 }),
    recipes := (List.range 107).map (fun k =>
      { id := k, title := "Dish", description := none, ingredients := ["x"],
        instructions := "mix", author := 0, views := 0, createdAt := 0 }),
    archived := [] }

/-- Update body whose title is shorter than the minlength of 3. -/
def bBad : UpdateBody :=
  { title := some "ab", description := none, ingredients := none,
    instructions := none, author := none, views := none, createdAt := none }

/-- Update body setting only the title, passing validation. -/
def bGood : UpdateBody :=
  { title := some "Pizza", description := none, ingredients := none,
    instructions := none, author := none, views := none, createdAt := none }

/-- Valid creation body. -/
def bC9 : CreateBody :=
  { title := some "Cake", description := none, ingredients := some ["x"],
    instructions := some "mix", author := some 1, views := none, createdAt := none }

/-- The same creation body with client-supplied views and createdAt. -/
def bC9v : CreateBody :=
  { bC9 with views := some 99, createdAt := some 123 }

/-- The recipe createRecipe stores for bC9 with id 7 at time 9. -/
def recC9 : Recipe :=
  { id := 7, title := "Cake", description := none, ingredients := ["x"],
    instructions := "mix", author := 1, views := 0, createdAt := 9 }

/-- Reduction of the reduce over views to a list sum. -/
theorem foldl_add_views (l : List Recipe) :
    ∀ n : Nat, l.foldl (fun acc r => acc + r.views) n = n + (l.map (fun r => r.views)).sum := by
  induction l with
  | nil => intro n; simp
  | cons r rs ih => intro n; simp [ih, Nat.add_assoc]

/-- Claim C8: totalViewsByUser returns the sum of the views counters of the
Recipes whose author equals the user id, computed over the loaded list. -/
theorem totalViewsByUser_spec (db : DB) (uid : Nat) :
    totalViewsByUser db uid
      = ((db.recipes.filter (fun r => r.author == uid)).map (fun r => r.views)).sum := by
  simpa [totalViewsByUser] using
    foldl_add_views (db.recipes.filter (fun r => r.author == uid)) 0

/-- Claim C10: for a user id owning no Recipes, the views-sum endpoint
succeeds with 0 while the highest-views endpoint returns NotFoundError. -/
theorem userViews_empty_spec (db : DB) (uid : Nat)
    (h : db.recipes.filter (fun r => r.author == uid) = []) :
    totalViewsByUser db uid = 0 ∧ mostViewedByUser db uid = Res.err Err.notFound := by
  refine ⟨?_, ?_⟩
  · simp [totalViewsByUser, h]
  · simp [mostViewedByUser, h]

/-- Witness for claim C10 at a store whose only recipe belongs to user 1. -/
theorem userViews_empty_spec_witness :
    totalViewsByUser dbA 2 = 0 ∧ mostViewedByUser dbA 2 = Res.err Err.notFound :=
  userViews_empty_spec dbA 2 (by decide)

/-- Claim C2: deleting a nonexistent recipe id returns NotFoundError and
leaves the store, the Archive included, unchanged. -/
theorem deleteRecipe_missing_spec (db : DB) (i now : Nat)
    (h : findRecipe db.recipes i = none) :
    deleteRecipe db i now = (db, Res.err Err.notFound) := by
  simp [deleteRecipe, archiveRecipe, h]

/-- Witness for claim C2 on the empty store. -/
theorem deleteRecipe_missing_spec_witness :
    deleteRecipe dbEmpty 5 0 = (dbEmpty, Res.err Err.notFound) :=
  deleteRecipe_missing_spec dbEmpty 5 0 (by decide)

/-- find? after updateFirst: when f does not change whether a document
matches p, updating the first match maps f over the find? result. -/
theorem find?_updateFirst (p : Recipe → Bool) (f : Recipe → Recipe)
    (hp : ∀ a, p (f a) = p a) (l : List Recipe) :
    (updateFirst p f l).find? p = (l.find? p).map f := by
  induction l with
  | nil => rfl
  | cons r rs ih =>
    cases hpr : p r with
    | true =>
      have hf : p (f r) = true := by rw [hp r, hpr]
      simp [updateFirst, hpr, hf]
    | false =>
      have hf : p (f r) = false := by rw [hp r, hpr]
      simp [updateFirst, hpr, hf, ih]

/-- One successful call of GET /recipe/:recipeId: the users and archive
collections are untouched, the stored document gains one view, and the
response is the post-increment document with the author populated. -/
theorem getRecipe_step (db : DB) (i : Nat) (r : Recipe)
    (h : findRecipe db.recipes i = some r) :
    (getRecipe db i).1.users = db.users ∧
    (getRecipe db i).1.archived = db.archived ∧
    findRecipe (getRecipe db i).1.recipes i = some (incViews r) ∧
    (getRecipe db i).2 = Res.ok (populateFull db.users (incViews r)) := by
  have hfu := find?_updateFirst (fun x => x.id == i) incViews (fun a => rfl) db.recipes
  refine ⟨?_, ?_, ?_, ?_⟩ <;>
    simp [getRecipe, findByIdAndIncViews, findRecipe, hfu,
          show db.recipes.find? (fun x => x.id == i) = some r from h]

/-- After N sequential calls of GET /recipe/:recipeId the stored document
has gained exactly N views. -/
theorem iterGet_views (db : DB) (i : Nat) (r : Recipe)
    (h : findRecipe db.recipes i = some r) :
    ∀ N : Nat,
      findRecipe (iterGetRecipe db i N).recipes i = some { r with views := r.views + N } := by
  intro N
  induction N with
  | zero => simpa using h
  | succ n ih => exact (getRecipe_step (iterGetRecipe db i n) i _ ih).2.2.1

/-- Claim C3: GET /recipe/:recipeId, on every existing Recipe whatever its
views count, increments the stored views counter by exactly 1 and answers
with the post-increment document, author resolved; a nonexistent id yields
NotFoundError; and N sequential calls on a fresh recipe leave views equal
to N. -/
theorem getRecipe_spec (db : DB) (i j : Nat) (r : Recipe) (N : Nat) :
    (findRecipe db.recipes i = some r →
      (getRecipe db i).2 = Res.ok (populateFull db.users (incViews r)) ∧
      findRecipe (getRecipe db i).1.recipes i = some (incViews r)) ∧
    (findRecipe db.recipes j = none → getRecipe db j = (db, Res.err Err.notFound)) ∧
    (findRecipe db.recipes i = some r → r.views = 0 →
      findRecipe (iterGetRecipe db i N).recipes i = some { r with views := N }) := by
  refine ⟨?_, ?_, ?_⟩
  · intro hr
    exact ⟨(getRecipe_step db i r hr).2.2.2, (getRecipe_step db i r hr).2.2.1⟩
  · intro hj
    simp [getRecipe, findByIdAndIncViews, hj]
  · intro hr hfresh
    simpa [hfresh] using iterGet_views db i r hr N

/-- Witness for claim C3: reading the Chocolate Cake recipe, already at
three views, returns it with four views and stores four views; id 99 is not
found; and three reads of the fresh Pasta recipe leave it at three views. -/
theorem getRecipe_spec_witness :
    ((getRecipe dbCakes 1).2 = Res.ok (populateFull dbCakes.users (incViews rChoc)) ∧
      findRecipe (getRecipe dbCakes 1).1.recipes 1 = some (incViews rChoc)) ∧
    getRecipe dbA 99 = (dbA, Res.err Err.notFound) ∧
    findRecipe (iterGetRecipe dbA 1 3).recipes 1 = some { rA with views := 3 } :=
  ⟨(getRecipe_spec dbCakes 1 99 rChoc 3).1 (by decide),
   (getRecipe_spec dbA 1 99 rA 3).2.1 (by decide),
   (getRecipe_spec dbA 1 99 rA 3).2.2 (by decide) (by decide)⟩

/-- Claim C4: GET /recipes/view/:recipeId leaves the store in exactly the
state GET /recipe/:recipeId leaves it in, fails with NotFoundError in
exactly the same cases, and on success answers with only a message and the
new counter value, with no author data. -/
theorem incrementView_spec (db : DB) (i : Nat) :
    (incrementView db i).1 = (getRecipe db i).1 ∧
    ((incrementView db i).2 = Res.err Err.notFound ↔ (getRecipe db i).2 = Res.err Err.notFound) ∧
    (incrementView db i).2 = (match findRecipe db.recipes i with
      | none => Res.err Err.notFound
      | some r => Res.ok { message := "View incremented", views := r.views + 1 }) := by
  cases h : findRecipe db.recipes i <;>
    simp [incrementView, getRecipe, findByIdAndIncViews, h, incViews]

/-- find? after removeFirst: with pairwise distinct ids, removing the
document with a given id leaves no document with that id. -/
theorem find?_removeFirst_nodup (i : Nat) (l : List Recipe)
    (hnd : (l.map (fun r => r.id)).Nodup) :
    (removeFirst (fun r => r.id == i) l).find? (fun r => r.id == i) = none := by
  induction l with
  | nil => rfl
  | cons r rs ih =>
    rw [List.map_cons, List.nodup_cons] at hnd
    cases hpr : (r.id == i) with
    | true =>
      have hri : r.id = i := eq_of_beq hpr
      rw [show removeFirst (fun x => x.id == i) (r :: rs) = rs by simp [removeFirst, hpr]]
      rw [List.find?_eq_none]
      intro a ha hai
      exact hnd.1 (List.mem_map.mpr ⟨a, ha, (eq_of_beq hai).trans hri.symm⟩)
    | false =>
      rw [show removeFirst (fun x => x.id == i) (r :: rs)
            = r :: removeFirst (fun x => x.id == i) rs by simp [removeFirst, hpr]]
      rw [List.find?_cons_of_neg _ (by simp [hpr])]
      exact ih hnd.2

/-- Claim C1: deleting an existing Recipe succeeds, afterwards the id no
longer resolves via GET /recipe/:recipeId, and the Archive holds a record
with the deleted Recipe's title, ingredients and instructions and with
archivedAt set to the archive time. The Nodup hypothesis is the store's
uniqueness of ids. -/
theorem deleteRecipe_existing_spec (db : DB) (i now : Nat) (r : Recipe)
    (hnd : (db.recipes.map (fun x => x.id)).Nodup)
    (hr : findRecipe db.recipes i = some r) :
    (deleteRecipe db i now).2 = Res.ok () ∧
    (getRecipe (deleteRecipe db i now).1 i).2 = Res.err Err.notFound ∧
    ∃ a ∈ (deleteRecipe db i now).1.archived,
      a.title = r.title ∧ a.ingredients = r.ingredients ∧
      a.instructions = r.instructions ∧ a.archivedAt = now := by
  have hr2 : db.recipes.find? (fun r => r.id == i) = some r := hr
  refine ⟨?_, ?_, ?_⟩
  · simp [deleteRecipe, archiveRecipe, hr]
  · have hnone := find?_removeFirst_nodup i db.recipes hnd
    simp [deleteRecipe, archiveRecipe, getRecipe, findByIdAndIncViews, findRecipe, hr2, hnone]
  · refine ⟨toArchived r now, ?_, rfl, rfl, rfl, rfl⟩
    simp [deleteRecipe, archiveRecipe, hr, toArchived]

/-- Witness for claim C1: deleting the Pasta recipe at time 7. -/
theorem deleteRecipe_existing_spec_witness :
    (deleteRecipe dbA 1 7).2 = Res.ok () ∧
    (getRecipe (deleteRecipe dbA 1 7).1 1).2 = Res.err Err.notFound ∧
    ∃ a ∈ (deleteRecipe dbA 1 7).1.archived,
      a.title = rA.title ∧ a.ingredients = rA.ingredients ∧
      a.instructions = rA.instructions ∧ a.archivedAt = 7 :=
  deleteRecipe_existing_spec dbA 1 7 rA (by decide) (by decide)

/-- Counterexample to claim C5 as stated: the body setting title to the
two-character string fails the minlength validator, so the update of the
existing recipe 1 answers with a 400 ValidationError and no document is
overwritten, while the claim promises an overwrite of the title for every
body. -/
theorem updateRecipe_claim_cex :
    findRecipe dbA.recipes 1 = some rA ∧
    bBad.title = some "ab" ∧
    updateRecipe dbA 1 bBad = (dbA, Res.err Err.validation) := by
  decide

/-- Claim C5 amended: a valid body on a nonexistent id yields NotFoundError;
a body rejected by the update validators yields ValidationError with the
store unchanged; a valid body on an existing id answers with a document in
which every field present in the body is overwritten with the body's value
and every other field keeps the stored value. -/
theorem updateRecipe_spec (db : DB) (i : Nat) (b : UpdateBody) (r : Recipe) :
    (validUpdate b = false → updateRecipe db i b = (db, Res.err Err.validation)) ∧
    (validUpdate b = true → findRecipe db.recipes i = none →
      updateRecipe db i b = (db, Res.err Err.notFound)) ∧
    (validUpdate b = true → findRecipe db.recipes i = some r →
      ∃ r2, (updateRecipe db i b).2 = Res.ok r2 ∧
        r2.title = b.title.getD r.title ∧
        r2.description = (match b.description with
          | some d => some d
          | none => r.description) ∧
        r2.ingredients = b.ingredients.getD r.ingredients ∧
        r2.instructions = b.instructions.getD r.instructions ∧
        r2.author = b.author.getD r.author ∧
        r2.views = b.views.getD r.views ∧
        r2.createdAt = b.createdAt.getD r.createdAt ∧
        r2.id = r.id) := by
  refine ⟨?_, ?_, ?_⟩
  · intro hv; simp [updateRecipe, hv]
  · intro hv hn; simp [updateRecipe, hv, hn]
  · intro hv hs
    refine ⟨applyUpdate b r, ?_, rfl, rfl, rfl, rfl, rfl, rfl, rfl, rfl⟩
    simp [updateRecipe, hv, hs]

/-- Witness for the amended claim C5: setting only the title of the Pasta
recipe overwrites the title and keeps every other field. -/
theorem updateRecipe_spec_witness :
    ∃ r2, (updateRecipe dbA 1 bGood).2 = Res.ok r2 ∧
      r2.title = bGood.title.getD rA.title ∧
      r2.description = (match bGood.description with
        | some d => some d
        | none => rA.description) ∧
      r2.ingredients = bGood.ingredients.getD rA.ingredients ∧
      r2.instructions = bGood.instructions.getD rA.instructions ∧
      r2.author = bGood.author.getD rA.author ∧
      r2.views = bGood.views.getD rA.views ∧
      r2.createdAt = bGood.createdAt.getD rA.createdAt ∧
      r2.id = rA.id :=
  (updateRecipe_spec dbA 1 bGood rA).2.2 (by decide) (by decide)

/-- Characters with no metacharacter meaning are read as lowercased
literal tokens. -/
theorem tokOf_plain (c : Char) (h : plainChar c = true) :
    tokOf c = RTok.lit c.toLower := by
  have hc : (c == '.') = false := by
    cases hc : c == '.' with
    | false => rfl
    | true => rw [eq_of_beq hc] at h; exact absurd h (by decide)
  simp [tokOf, hc]

/-- On a metacharacter-free token list, an anchored regex match is a
lowercased prefix test. -/
theorem matchHere_plain (p : List Char) (hp : ∀ c ∈ p, plainChar c = true) :
    ∀ cs : List Char,
      matchHere (p.map tokOf) cs = (p.map Char.toLower).isPrefixOf (cs.map Char.toLower) := by
  induction p with
  | nil => intro cs; cases cs <;> rfl
  | cons a p ih =>
    intro cs
    cases cs with
    | nil => rfl
    | cons c cs =>
      have ha : tokOf a = RTok.lit a.toLower := tokOf_plain a (hp a (by simp))
      have ihh := ih (fun x hx => hp x (by simp [hx])) cs
      simp [matchHere, List.isPrefixOf, ha, tokMatches, ihh]

/-- On a metacharacter-free pattern, the unanchored regex search is the
lowercased substring test. -/
theorem searchFrom_plain (p : List Char) (hp : ∀ c ∈ p, plainChar c = true) :
    ∀ cs : List Char,
      searchFrom (p.map tokOf) cs = containsFrom (p.map Char.toLower) (cs.map Char.toLower) := by
  intro cs
  induction cs with
  | nil => simpa [searchFrom, containsFrom] using matchHere_plain p hp []
  | cons c cs ih =>
    simp [searchFrom, containsFrom, matchHere_plain p hp (c :: cs), ih]

/-- On a metacharacter-free filter string, the store regex test coincides
with case-insensitive substring containment. -/
theorem regexTest_plain (f s : String) (hf : ∀ c ∈ f.data, plainChar c = true) :
    regexTest f s = ciContains s f := by
  simpa [regexTest, regexToks, ciContains] using searchFrom_plain f.data hf s.data

/-- The empty needle occurs in every list. -/
theorem containsFrom_nil (l : List Char) : containsFrom [] l = true := by
  cases l <;> rfl

/-- Counterexample to claim C6 as stated: the filter string consisting of
one dot is passed to the store as a regex, so it matches the title "Cake"
even though that title does not contain a dot — the listing is not a
case-insensitive substring filter for every filter string. -/
theorem listRecipes_claim_cex :
    (listRecipes dbDot (some ".")).map (fun x => x.title) = ["Cake"] ∧
    ciContains "Cake" "." = false := by
  decide

/-- Claim C6 amended: for every filter string free of regex metacharacters
(letters, digits and spaces), the listing returns exactly the recipes whose
title contains the filter as a case-insensitive substring, each with the
author resolved to name and email; with no filter it returns all recipes,
likewise populated. -/
theorem listRecipes_spec (db : DB) (f : String)
    (hf : ∀ c ∈ f.data, plainChar c = true) :
    listRecipes db (some f)
      = (db.recipes.filter (fun r => ciContains r.title f)).map (populateNameEmail db.users) ∧
    listRecipes db none = db.recipes.map (populateNameEmail db.users) := by
  constructor
  · by_cases he : f.isEmpty
    · have hfe : f = "" := (String.isEmpty_iff f).mp he
      subst hfe
      have hall : db.recipes.filter (fun r => ciContains r.title "") = db.recipes :=
        List.filter_eq_self.mpr (fun r _ => by
          simpa [ciContains] using containsFrom_nil (r.title.data.map Char.toLower))
      simp [listRecipes, he, hall]
    · have hq : ∀ r ∈ db.recipes, regexTest f r.title = ciContains r.title f :=
        fun r _ => regexTest_plain f r.title hf
      simp [listRecipes, he, List.filter_congr hq]
  · rfl

/-- Witness for the amended claim C6 at the three cake-example recipes with
the filter string "cake". -/
theorem listRecipes_spec_witness :
    listRecipes dbCakes (some "cake")
      = (dbCakes.recipes.filter (fun r => ciContains r.title "cake")).map
          (populateNameEmail dbCakes.users) ∧
    listRecipes dbCakes none = dbCakes.recipes.map (populateNameEmail dbCakes.users) :=
  listRecipes_spec dbCakes "cake" (by decide)

/-- The denominator produced by mkDyadic is positive. -/
theorem mkDyadic_den_pos (m : Nat) (e : Int) : 0 < (mkDyadic m e).2 := by
  unfold mkDyadic
  split
  · exact Nat.one_pos
  · exact Nat.two_pow_pos _

/-- The denominator of the double quotient is positive. -/
theorem doubleQuotient_den_pos (r u : Nat) : 0 < (doubleQuotient r u).2 := by
  unfold doubleQuotient
  split
  · exact Nat.one_pos
  · exact mkDyadic_den_pos _ _

/-- Counterexample to claim C7 as stated: with 107 recipes and 40 users the
exact ratio is 2.675, whose rounding to two decimal places has hundredths
value 268 (the string "2.68") under the ties-up and the ties-even rule
alike, yet the program renders "2.67": the binary64 value of 107 / 40 lies
just below 2.675, and toFixed(2) rounds that double, not the exact ratio. -/
theorem getAnalytics_claim_cex :
    (getAnalytics dbCex7).totalRecipes = 107 ∧
    (getAnalytics dbCex7).totalUsers = 40 ∧
    (getAnalytics dbCex7).avgRecipesPerUser = JsonNum.str "2.67" ∧
    (200 * 107 + 40) / (2 * 40) = 268 :=
  ⟨by decide, by decide, by decide, by decide⟩

/-- Claim C7 amended: analytics returns the two document counts as plain
integers and the average as the number 0 when there are no users; with
users present the average is the toFixed(2) string of the binary64 quotient
of the counts, whose hundredths value is within half a hundredth of that
double quotient (nearest rounding, ties up) — of the double quotient, not
always of the exact ratio. -/
theorem getAnalytics_spec (db : DB) :
    (getAnalytics db).totalUsers = db.users.length ∧
    (getAnalytics db).totalRecipes = db.recipes.length ∧
    (db.users.length = 0 → (getAnalytics db).avgRecipesPerUser = JsonNum.int 0) ∧
    (0 < db.users.length →
      (getAnalytics db).avgRecipesPerUser
        = JsonNum.str (toFixed2 db.recipes.length db.users.length) ∧
      2 * (doubleQuotient db.recipes.length db.users.length).2
          * fixedHundredths db.recipes.length db.users.length
        ≤ 200 * (doubleQuotient db.recipes.length db.users.length).1
            + (doubleQuotient db.recipes.length db.users.length).2 ∧
      200 * (doubleQuotient db.recipes.length db.users.length).1
        < 2 * (doubleQuotient db.recipes.length db.users.length).2
            * fixedHundredths db.recipes.length db.users.length
          + (doubleQuotient db.recipes.length db.users.length).2) := by
  refine ⟨rfl, rfl, ?_, ?_⟩
  · intro h; simp [getAnalytics, h]
  · intro h
    have hne : (db.users.length == 0) = false := by
      rw [beq_eq_false_iff_ne]; omega
    refine ⟨by simp [getAnalytics, hne], ?_⟩
    have hden := doubleQuotient_den_pos db.recipes.length db.users.length
    have hdm := Nat.div_add_mod
      (200 * (doubleQuotient db.recipes.length db.users.length).1
        + (doubleQuotient db.recipes.length db.users.length).2)
      (2 * (doubleQuotient db.recipes.length db.users.length).2)
    have hlt := Nat.mod_lt
      (200 * (doubleQuotient db.recipes.length db.users.length).1
        + (doubleQuotient db.recipes.length db.users.length).2)
      (show 0 < 2 * (doubleQuotient db.recipes.length db.users.length).2 by omega)
    simp only [fixedHundredths]
    set vn := (doubleQuotient db.recipes.length db.users.length).1 with hvn
    set vd := (doubleQuotient db.recipes.length db.users.length).2 with hvd
    set q := (200 * vn + vd) / (2 * vd) with hq
    set m := (200 * vn + vd) % (2 * vd) with hm2
    set k := 2 * vd * q with hk
    omega

/-- Witness for the amended claim C7: with two users and three recipes the
average is the two-decimal string "1.50"; the empty store yields the
integer 0. -/
theorem getAnalytics_spec_witness :
    (getAnalytics dbAn).avgRecipesPerUser = JsonNum.str (toFixed2 3 2) ∧
    toFixed2 3 2 = "1.50" ∧
    (getAnalytics dbEmpty).avgRecipesPerUser = JsonNum.int 0 :=
  ⟨((getAnalytics_spec dbAn).2.2.2 (by decide)).1, by decide,
   (getAnalytics_spec dbEmpty).2.2.1 (by decide)⟩

/-- Claim C9: the creation handler destructures only title, description,
ingredients, instructions and author, so a body carrying views or createdAt
values produces exactly the same outcome, and every successfully created
Recipe starts with views equal to 0 and is built from those five fields
only. -/
theorem createRecipe_spec (db : DB) (b : CreateBody) (newId now v c : Nat) :
    createRecipe db { b with views := some v, createdAt := some c } newId now
      = createRecipe db b newId now ∧
    (∀ r2, (createRecipe db b newId now).2 = Res.ok r2 →
      r2.views = 0 ∧ r2.id = newId ∧ r2.title = b.title.getD "" ∧
      r2.description = b.description ∧ r2.ingredients = b.ingredients.getD [] ∧
      r2.instructions = b.instructions.getD "" ∧ r2.author = b.author.getD 0 ∧
      r2.createdAt = now ∧
      (createRecipe db b newId now).1.recipes = db.recipes ++ [r2]) := by
  constructor
  · rfl
  · intro r2 h2
    by_cases hv : validCreate b
    · simp [createRecipe, hv] at h2
      subst h2
      refine ⟨rfl, rfl, rfl, rfl, rfl, rfl, rfl, rfl, ?_⟩
      simp [createRecipe, hv]
    · simp [createRecipe, hv] at h2

/-- Witness for claim C9: a body additionally carrying views 99 and
createdAt 123 creates the same document, stored with views 0. -/
theorem createRecipe_spec_witness :
    createRecipe dbEmpty bC9v 7 9 = createRecipe dbEmpty bC9 7 9 ∧
    (recC9.views = 0 ∧ recC9.id = 7 ∧ recC9.title = bC9.title.getD "" ∧
      recC9.description = bC9.description ∧ recC9.ingredients = bC9.ingredients.getD [] ∧
      recC9.instructions = bC9.instructions.getD "" ∧ recC9.author = bC9.author.getD 0 ∧
      recC9.createdAt = 9 ∧
      (createRecipe dbEmpty bC9 7 9).1.recipes = dbEmpty.recipes ++ [recC9]) :=
  ⟨(createRecipe_spec dbEmpty bC9 7 9 99 123).1,
   (createRecipe_spec dbEmpty bC9 7 9 99 123).2 recC9 (by decide)⟩

end RecipeApp
